import Mathlib

/-!
Verification of the toda live-interposition engine core
(src/main.rs, src/mount.rs, src/replacer/fd_replacer.rs).

Paths are modelled as lists of components (Rust `Path` comparisons such as
`starts_with` and `strip_prefix` are component-wise on canonical paths).
Fallible Rust functions returning `anyhow::Result` are modelled with
`Except String`.
-/

namespace Toda

/-! ## Path model (Rust std::path semantics on canonical absolute paths) -/

/-- One path is a component-wise ancestor of another: Rust
`Path::starts_with(base)`. -/
def pathStartsWith : List String → List String → Bool
  | _, [] => true
  | [], _ :: _ => false
  | p :: ps, b :: bs => p == b && pathStartsWith ps bs

/-- Rust `Path::strip_prefix(base)`: drops the leading components when
`base` is a component-wise ancestor, errors otherwise. -/
def stripPref (p base : List String) : Option (List String) :=
  if pathStartsWith p base then some (p.drop base.length) else none

/-! ## FdReplacer::prepare path computation (fd_replacer.rs lines 221-231)

The per-descriptor pipeline keeps only entries whose kernel target is a
plain path (`FDTarget::Path`), filters on `path.starts_with(detect_path)`,
strips this base and joins the remainder onto `new_path`:
`Some((pid, (fd, new_path.join(stripped_path))))`. -/

/-- Kernel-reported target of a file descriptor (procfs `FDTarget`): a plain
path, or any of the non-path variants (socket, pipe, anon inode, ...). -/
inductive FdTarget where
  | path (p : List String)
  | other
  deriving DecidableEq, Repr

/-- Replacement path computed by `FdReplacer::prepare` for one descriptor:
`new_path.join(path.strip_prefix(detect_path))` guarded by
`path.starts_with(detect_path)`; `none` when the filter drops the entry. -/
def preparePath (detectPath newPath p : List String) : Option (List String) :=
  if pathStartsWith p detectPath then
    match stripPref p detectPath with
    | some stripped => some (newPath ++ stripped)
    | none => none
  else none

/-- Per-entry selection of `FdReplacer::prepare`: non-path targets are
dropped, path targets go through `preparePath`. -/
def prepareEntry (detectPath newPath : List String) (fd : Nat)
    (target : FdTarget) : Option (Nat × List String) :=
  match target with
  | .path p =>
    match preparePath detectPath newPath p with
    | some q => some (fd, q)
    | none => none
  | .other => none

/-- In `inject` (main.rs lines 83-85) the replacer is prepared with
`replacer.prepare(&path, &path)`: detect root and new root are both the
canonicalized target path. -/
def injectPreparePath (target p : List String) : Option (List String) :=
  preparePath target target p

/-! ## FdReplacer::run (fd_replacer.rs lines 254-263)

```rust
fn run(&mut self) -> Result<()> {
    for (_, accessor) in self.processes.drain() {
        accessor.run()?;
    }
    Ok(())
}
```

`drain()` removes every entry from the map: entries consumed by the loop
are yielded, and when the loop exits early through `?` the `Drain`
iterator is dropped, whose drop glue removes all remaining entries from
the `HashMap` as well. The model threads the map explicitly and returns
the final map contents together with the list of pids whose accessor
actually executed. -/

/-- Per-victim work unit: pid plus the packed replace cases. The outcome of
driving the remote executor for this accessor is supplied externally as an
oracle `exec` (it depends on ptrace and the victim). -/
structure Accessor where
  pid : Int
  cases : List (Nat × Nat)
  deriving DecidableEq, Repr

/-- Loop body of `FdReplacer::run` over the drained entries: stops at the
first accessor error (the `?`), in which case the dropped `Drain` removes
the remaining entries. Returns (result, executed pids, remaining map). -/
def runDrain (exec : Accessor → Except String Unit) :
    List (Int × Accessor) → Except String Unit × List Int × List (Int × Accessor)
  | [] => (.ok (), [], [])
  | (p, a) :: rest =>
    match exec a with
    | .ok _ =>
      let r := runDrain exec rest
      (r.1, p :: r.2.1, r.2.2)
    | .error e => (.error e, [], [])

/-- Internal state of `FdReplacer`: the PID to accessor map. -/
structure FdReplacer where
  processes : List (Int × Accessor)
  deriving Repr

/-- `FdReplacer::run`: drain the map, running each accessor, propagating
the first error. Returns result, executed pids and the post-state. -/
def FdReplacer.run (r : FdReplacer) (exec : Accessor → Except String Unit) :
    Except String Unit × List Int × FdReplacer :=
  let o := runDrain exec r.processes
  (o.1, o.2.1, { processes := o.2.2 })

/-- Accessor construction step of `FdReplacer::prepare` (lines 236-247):
each group is built into an accessor; a build failure is logged and the
pid is dropped (`filter_map` returning `None`), never propagated. -/
def prepareBuildStep (build : Int → Except String Accessor) :
    List Int → List (Int × Accessor)
  | [] => []
  | pid :: rest =>
    match build pid with
    | .ok a => (pid, a) :: prepareBuildStep build rest
    | .error _ => prepareBuildStep build rest

/-! ## MountsInfo::bind_mount (mount.rs lines 60-77)

```rust
mount(Some(original_path), target_path, NONE, MsFlags::MS_BIND, NONE)
    .unwrap_or_else(|e| panic!("mount bind failed: {}", e));
retry(Fixed::from_millis(500).take(20), || {
    if let Err(err) = umount(original_path.as_ref()) { ... Retry(err) }
    else { Ok(()) }
})?;
```

The `retry` crate calls the operation once, then consumes one element of
the delay iterator per additional attempt, sleeping that delay first; it
returns the error once the iterator is exhausted. `Fixed::from_millis(500)
.take(20)` therefore yields 20 delays of 500 ms: one initial attempt plus
up to 20 retries. -/

/-- Delay iterator `Fixed::from_millis(500).take(n)` as a list of delays
in milliseconds. -/
def fixedTake (n : Nat) : List Nat := List.replicate n 500

/-- Semantics of `retry::retry` specialised to this delay list. `op i`
tells whether attempt number `i` (1-based) succeeds. Returns the number of
attempts made on success, or the total number of attempts on exhaustion. -/
def retryRun (op : Nat → Bool) (currentTry : Nat) :
    List Nat → Except Nat Nat
  | [] => if op currentTry then .ok currentTry else .error currentTry
  | _ :: delays =>
    if op currentTry then .ok currentTry
    else retryRun op (currentTry + 1) delays

/-- Outcome of `MountsInfo::bind_mount`: the bind `mount` syscall failing
panics the whole process; otherwise the umount retry loop runs and only
its exhaustion surfaces as `Err`. -/
inductive BindMountOutcome where
  | panicked
  | ok (attempts : Nat)
  | err (attempts : Nat)
  deriving DecidableEq, Repr

/-- `MountsInfo::bind_mount` with the bind syscall result and the umount
attempt oracle supplied by the environment. -/
def bindMount (bindOk : Bool) (umountOk : Nat → Bool) : BindMountOutcome :=
  if bindOk then
    match retryRun umountOk 1 (fixedTake 20) with
    | .ok n => .ok n
    | .error n => .err n
  else .panicked

/-! ## Supervisor: resume (main.rs lines 115-145)

```rust
mount_guard.disable_injection();
let path = path.canonicalize()?;
let (_, new_path) = encode_path(&path)?;
let replacer = if !option.mount_only {
    let mut replacer = UnionReplacer::new();
    replacer.prepare(&path, &new_path)?;
    let result = replacer.run();
    info!("replace result: {:?}", result);
    Some(replacer)
} else { None };
mount_guard.recover_mount()?;
```

Fallible steps are supplied as oracle results; the model records which of
the two tail steps (replacer run, recover_mount) were reached. -/

/-- Environment for one `resume` call: the result of each fallible step. -/
structure ResumeEnv where
  mountOnly : Bool
  canonicalizeRes : Except String (List String)
  encodePathRes : Except String (List String)
  prepareRes : Except String Unit
  replacerRunRes : Except String Unit
  recoverMountRes : Except String Unit

/-- Observable outcome of `resume`: its returned `Result`, whether the
replacer `run` step was reached, and whether `recover_mount` was called. -/
structure ResumeOutcome where
  result : Except String Unit
  ranReplacer : Bool
  recoverAttempted : Bool
  deriving Repr

/-- The `recover_mount()?` tail shared by both branches of `resume`. -/
def resumeTail (env : ResumeEnv) (ranReplacer : Bool) : ResumeOutcome :=
  match env.recoverMountRes with
  | .ok _ => ⟨.ok (), ranReplacer, true⟩
  | .error e => ⟨.error e, ranReplacer, true⟩

/-- `resume` (main.rs lines 115-145). `disable_injection` is infallible
and always runs first; `canonicalize`, `encode_path` and `prepare` use
`?` and abort, while the replacer `run` result is only logged. -/
def resume (env : ResumeEnv) : ResumeOutcome :=
  match env.canonicalizeRes with
  | .error e => ⟨.error e, false, false⟩
  | .ok _ =>
    match env.encodePathRes with
    | .error e => ⟨.error e, false, false⟩
    | .ok _ =>
      if env.mountOnly then resumeTail env false
      else
        match env.prepareRes with
        | .error e => ⟨.error e, false, false⟩
        | .ok _ => resumeTail env true

/-! ## Supervisor: main tail (main.rs lines 182-211)

```rust
let mount_injector = inject(option.clone(), vec![]);
...
wait_for_signal(reader)?;
if let Ok(v) = mount_injector {
    resume(option, v)?;
}
Ok(())
```

`fn main() -> Result<()>`: returning `Ok` exits with status 0, returning
`Err` exits with a non-zero status. -/

/-- Result of `main` after the signal arrives, as a function of the
`inject` result and the `resume` outcome for the successfully created
guard. When `inject` failed, `if let Ok` does not match and `main` falls
through to `Ok(())`. -/
def mainAfterSignal (injectRes : Except String ResumeEnv)
    (waitRes : Except String Unit) : Except String Unit :=
  match waitRes with
  | .error e => .error e
  | .ok _ =>
    match injectRes with
    | .ok env => (resume env).result
    | .error _ => .ok ()

/-- Process exit status from the `Result` returned by `main` (Rust
`Termination` for `Result`: `Ok` is 0, `Err` is non-zero). -/
def exitStatus : Except String Unit → Nat
  | .ok _ => 0
  | .error _ => 1

/-! ## Inject step ordering (main.rs lines 69-111) -/

/-- Steps of `inject`, in the vocabulary of the spec. -/
inductive InjectEvent where
  | canonicalizePath
  | msPrivateRemount
  | msBindSelf
  | replacerPrepare
  | mkfuseNode
  | createInjection
  | fuseMountShadow
  | msMoveOverTarget
  | replacerRun
  | enableInjection
  deriving DecidableEq, Repr

/-- Modelled from the spec: the body of `MountInjector::mount` (called at
main.rs line 97) is not among these sources; per spec section 4.6 it
mounts the hookfs and performs the `MS_MOVE`, and the source comment at
main.rs lines 101-102 ("At this time, `mount --move` has already been
executed.") fixes that both happen inside the `mount()` call, before
`replacer.run()`. All other events are the statements of `inject` in
main.rs lines 75-109, in source order. -/
def injectTrace : List InjectEvent :=
  [.canonicalizePath, .msPrivateRemount, .msBindSelf, .replacerPrepare,
   .mkfuseNode, .createInjection, .fuseMountShadow, .msMoveOverTarget,
   .replacerRun, .enableInjection]

/-- Position of a step in the `inject` trace. -/
def injectPos (e : InjectEvent) : Nat := injectTrace.indexOf e

/-! ## Remote payload (fd_replacer.rs lines 122-190)

The dynasm block first places the static data (packed case array, its
byte length, the string table) and then the code. The code is modelled
twice: syntactically, as the instruction listing (to state shape facts
such as the final `int3`), and semantically, as a transformer on the
victim file-descriptor table (to state what each iteration does). -/

/-- Instruction listing of the generated payload, one constructor per
dynasm line after the static data. -/
inductive Instr where
  | xorR15R15
  | leaR14Cases
  | jmpEnd
  | labelStart
  | movRaxFcntl
  | movRdiCaseFd
  | movRsiGetfl
  | movRdxZero
  | syscall
  | movRsiRax
  | movRaxOpen
  | leaRdiNewPaths
  | addRdiCaseOffset
  | pushRax
  | movRdiRax
  | movRaxDup2
  | movRsiCaseFd
  | movRaxClose
  | popRdi
  | addR15CaseSize
  | labelEnd
  | movR13CasesLength
  | cmpR15R13
  | jbStart
  | int3
  deriving DecidableEq, Repr

/-- The code part of the payload (fd_replacer.rs lines 137-176), in
emission order. -/
def payloadCode : List Instr :=
  [.xorR15R15, .leaR14Cases, .jmpEnd, .labelStart,
   .movRaxFcntl, .movRdiCaseFd, .movRsiGetfl, .movRdxZero, .syscall,
   .movRsiRax,
   .movRaxOpen, .leaRdiNewPaths, .addRdiCaseOffset, .movRdxZero, .syscall,
   .pushRax, .movRdiRax,
   .movRaxDup2, .movRsiCaseFd, .syscall,
   .movRaxClose, .popRdi, .syscall,
   .addR15CaseSize, .labelEnd,
   .movR13CasesLength, .cmpR15R13, .jbStart,
   .int3]

/-- Loop iteration count of the payload: `r15` starts at 0, each pass adds
`size_of::<ReplaceCase>() = 16`, and the loop re-enters while
`r15 < cases_length` (`cmp r15, r13; jb ->start`). -/
def loopIter (casesLen r15 : Nat) : Nat :=
  if r15 < casesLen then loopIter casesLen (r15 + 16) + 1 else 0
termination_by casesLen - r15
decreasing_by omega

/-- An open file object in the victim: the path it was opened at and its
open flags (`O_RDONLY`/`O_WRONLY`/`O_RDWR`/`O_APPEND`/...). -/
structure FileObj where
  path : List String
  flags : Int
  deriving DecidableEq, Repr

/-- Victim file-descriptor table. Descriptors are `Int` because the
payload feeds raw syscall return values (negative errno on failure) back
into `dup2`/`close`; a well-formed table is `none` on negatives. -/
def FdTable := Int → Option FileObj

/-- A table is well formed when no negative number is an open descriptor. -/
def FdTable.wf (tbl : FdTable) : Prop := ∀ k : Int, k < 0 → tbl k = none

/-- Kernel semantics of `fcntl(fd, F_GETFL)`: the flags of the open
descriptor, or a negative errno (`-EBADF`) for a bad one. -/
def fcntlGetfl (tbl : FdTable) (fd : Int) : Int :=
  match tbl fd with
  | some o => o.flags
  | none => -9

/-- Kernel semantics of `open(path, flags)`: the outcome (fresh descriptor
or negative errno) is the oracle value `openRes path flags`; on success the
table gains the new descriptor, bound to the requested path and flags. -/
def openStep (openRes : List String → Int → Int) (tbl : FdTable)
    (p : List String) (flags : Int) : Int × FdTable :=
  let n := openRes p flags
  if 0 ≤ n then (n, fun k => if k = n then some ⟨p, flags⟩ else tbl k)
  else (n, tbl)

/-- Kernel semantics of `dup2(oldfd, newfd)`: a bad `oldfd` fails with
`EBADF` and changes nothing; otherwise `newfd` now refers to the object of
`oldfd`. -/
def dup2Step (tbl : FdTable) (oldfd newfd : Int) : FdTable :=
  match tbl oldfd with
  | some o => fun k => if k = newfd then some o else tbl k
  | none => tbl

/-- Kernel semantics of `close(fd)`: a bad `fd` fails with `EBADF` and
changes nothing; otherwise the descriptor is removed. -/
def closeStep (tbl : FdTable) (fd : Int) : FdTable :=
  match tbl fd with
  | some _ => fun k => if k = fd then none else tbl k
  | none => tbl

/-- Syscalls issued by the payload, with the arguments in the payload
registers at the `syscall` instruction. -/
inductive SysEvent where
  | fcntl (fd cmd ret : Int)
  | openPath (pathOffset : Nat) (flags mode ret : Int)
  | dup2 (oldfd newfd : Int)
  | closeFd (fd : Int)
  deriving DecidableEq, Repr

/-- One iteration of the payload loop on case `(fd, new_path_offset)`:
`fcntl(fd, F_GETFL)`, then `open` of the string-table entry with the
returned flags in `rsi` and mode 0 in `rdx`, then `dup2(n, fd)`, then
`close(n)`, with `n` the raw `open` return value. Returns the syscall
trace and the new table. -/
def runCase (openRes : List String → Int → Int) (paths : Nat → List String)
    (tbl : FdTable) (c : Nat × Nat) : List SysEvent × FdTable :=
  let fd : Int := (c.1 : Int)
  let flags := fcntlGetfl tbl fd
  let p := paths c.2
  let o := openStep openRes tbl p flags
  let n := o.1
  let tbl2 := dup2Step o.2 n fd
  let tbl3 := closeStep tbl2 n
  ([.fcntl fd 3 flags, .openPath c.2 flags 0 n, .dup2 n fd, .closeFd n],
   tbl3)

/-- The payload loop over the whole case array, in order. -/
def runCases (openRes : List String → Int → Int)
    (paths : Nat → List String) (tbl : FdTable) :
    List (Nat × Nat) → List SysEvent × FdTable
  | [] => ([], tbl)
  | c :: rest =>
    let s := runCase openRes paths tbl c
    let r := runCases openRes paths s.2 rest
    (s.1 ++ r.1, r.2)

/-! ## Concrete instances used to evaluate the theorems -/

/-- Execution oracle on which every accessor run fails (for example with
`RemoteExecFailed`). -/
def execAllFail : Accessor → Except String Unit :=
  fun _ => .error "RemoteExecFailed"

/-- A replacer prepared for two victims, pids 1 and 2. -/
def twoVictims : FdReplacer :=
  { processes := [(1, ⟨1, [(3, 0)]⟩), (2, ⟨2, [(4, 0)]⟩)] }

/-- A resume environment whose replacer preparation fails. -/
def prepFailEnv : ResumeEnv :=
  { mountOnly := false
    canonicalizeRes := .ok ["tmp", "chaos"]
    encodePathRes := .ok ["tmp", "chaos-enc"]
    prepareRes := .error "PtraceAttachFailed"
    replacerRunRes := .ok ()
    recoverMountRes := .ok () }

/-- An umount oracle that succeeds on the 21st attempt only. -/
def succeedAt21 : Nat → Bool := fun i => i == 21

/-- A victim table with a single descriptor 3 open on a target file with
flags 1025 (`O_WRONLY` with `O_APPEND`). -/
def tblFd3 : FdTable :=
  fun k => if k = 3 then some ⟨["tmp", "chaos", "f"], 1025⟩ else none

/-- An open oracle that always hands out descriptor 4. -/
def openGives4 : List String → Int → Int := fun _ _ => 4

/-- An open oracle that always fails with `-ENOENT`. -/
def openFailsEnoent : List String → Int → Int := fun _ _ => -2

/-- A one-entry string table. -/
def pathsConst : Nat → List String := fun _ => ["tmp", "chaos", "f"]

/-- A resume environment whose replacer run fails but preparation works. -/
def prepOkEnv : ResumeEnv :=
  { mountOnly := false
    canonicalizeRes := .ok ["tmp", "chaos"]
    encodePathRes := .ok ["tmp", "chaos-enc"]
    prepareRes := .ok ()
    replacerRunRes := .error "RemoteExecFailed"
    recoverMountRes := .ok () }

/-- An umount oracle that succeeds immediately. -/
def succeedAt1 : Nat → Bool := fun i => i == 1

/-- An umount oracle that never succeeds. -/
def umountAllFail : Nat → Bool := fun _ => false

/-- An accessor build oracle that always fails. -/
def buildAllFail : Int → Except String Accessor :=
  fun _ => .error "PtraceAttachFailed"

/-! # Theorems -/

/-- Helper: `runDrain` leaves no entry behind, whether the loop finished
or stopped at an error (the dropped `Drain` removes the rest). -/
theorem runDrain_drained (exec : Accessor → Except String Unit) :
    ∀ l : List (Int × Accessor), (runDrain exec l).2.2 = [] := by
  intro l
  induction l with
  | nil => rfl
  | cons pa rest ih =>
    obtain ⟨p, a⟩ := pa
    cases h : exec a with
    | ok u => simp [runDrain, h, ih]
    | error e => simp [runDrain, h]

/-- C10: after `FdReplacer::run` returns, with `Ok` or with the early
`Err` of one accessor, the PID map is empty, so a second `run` succeeds
trivially and executes no accessor. -/
theorem fdReplacer_run_drains_map (r : FdReplacer)
    (exec : Accessor → Except String Unit) :
    (r.run exec).2.2.processes = [] ∧
    ((r.run exec).2.2.run exec).1 = .ok () ∧
    ((r.run exec).2.2.run exec).2.1 = [] := by
  have h := runDrain_drained exec r.processes
  refine ⟨h, ?_, ?_⟩ <;> simp [FdReplacer.run, h, runDrain]

/-- C1 counterexample: with every victim failing, `FdReplacer::run`
returns the first `RemoteExecFailed` error instead of continuing, and the
reported executed set is empty: the batch is aborted by a per-victim
failure. -/
theorem fdReplacer_run_aborts_on_first_failure :
    (twoVictims.run execAllFail).1 = .error "RemoteExecFailed" ∧
    (twoVictims.run execAllFail).2.1 = [] := ⟨rfl, rfl⟩

/-- C1 (amended): a failing accessor run aborts `FdReplacer::run` with
that error through the `?` operator and executes none of the remaining
accessors (they are dropped unexecuted); per-victim skipping happens only
in `prepare`, where an accessor build failure is logged, that pid is
dropped and the rest are kept. -/
theorem fdReplacer_run_propagates_first_error
    (exec : Accessor → Except String Unit) (p : Int) (a : Accessor)
    (rest : List (Int × Accessor)) (e : String) (h : exec a = .error e)
    (build : Int → Except String Accessor) (pid : Int) (pids : List Int)
    (e2 : String) (hb : build pid = .error e2) :
    (FdReplacer.run ⟨(p, a) :: rest⟩ exec).1 = .error e ∧
    (FdReplacer.run ⟨(p, a) :: rest⟩ exec).2.1 = [] ∧
    prepareBuildStep build (pid :: pids) = prepareBuildStep build pids := by
  refine ⟨?_, ?_, ?_⟩ <;>
    simp [FdReplacer.run, runDrain, h, prepareBuildStep, hb]

/-- C1 witness: the amended statement evaluated on the two-victim
replacer and an always-failing build oracle. -/
theorem fdReplacer_run_propagates_first_error_witness :
    (FdReplacer.run ⟨(1, ⟨1, [(3, 0)]⟩) :: [(2, ⟨2, [(4, 0)]⟩)]⟩
      execAllFail).1 = .error "RemoteExecFailed" ∧
    (FdReplacer.run ⟨(1, ⟨1, [(3, 0)]⟩) :: [(2, ⟨2, [(4, 0)]⟩)]⟩
      execAllFail).2.1 = [] ∧
    prepareBuildStep buildAllFail (7 :: []) = prepareBuildStep buildAllFail [] :=
  fdReplacer_run_propagates_first_error execAllFail 1 ⟨1, [(3, 0)]⟩
    [(2, ⟨2, [(4, 0)]⟩)] "RemoteExecFailed" rfl buildAllFail 7 []
    "PtraceAttachFailed" rfl

/-- Helper: when `p` starts with the component sequence `b`, rejoining
`b` with the stripped remainder gives back `p`. -/
theorem pathStartsWith_append_drop :
    ∀ p b : List String, pathStartsWith p b = true →
      b ++ p.drop b.length = p
  | _, [], _ => rfl
  | [], b :: bs, h => by simp [pathStartsWith] at h
  | x :: xs, b :: bs, h => by
    simp only [pathStartsWith, Bool.and_eq_true, beq_iff_eq] at h
    obtain ⟨h1, hrest⟩ := h
    subst h1
    simpa using pathStartsWith_append_drop xs bs hrest

/-- C2 counterexample: during inject the replacer is prepared with
`prepare(&path, &path)` (main.rs line 85), so for a descriptor path under
the target the computed replacement is the original path itself, not a
path under a distinct shadow root. -/
theorem injectPreparePath_identity_cx :
    injectPreparePath ["tmp", "chaos"] ["tmp", "chaos", "hello"] =
      some ["tmp", "chaos", "hello"] := by decide

/-- C2 (amended): `FdReplacer::prepare` computes the replacement as
`new_root ⊕ (path − detect_path)` for plain-path descriptors under
`detect_path` and drops non-path targets; during inject both roots are
the target itself, so every replacement equals the original path (which
resolves into the hookfs after the preceding move); the shadow root is
passed only by `resume`. -/
theorem preparePath_formula (detect newRoot p : List String) (fd : Nat)
    (h : pathStartsWith p detect = true) :
    preparePath detect newRoot p = some (newRoot ++ p.drop detect.length) ∧
    injectPreparePath detect p = some p ∧
    prepareEntry detect newRoot fd .other = none := by
  refine ⟨?_, ?_, rfl⟩
  · simp [preparePath, stripPref, h]
  · simp [injectPreparePath, preparePath, stripPref, h,
      pathStartsWith_append_drop p detect h]

/-- C2 witness: the amended statement evaluated at a concrete target,
shadow root and descriptor path. -/
theorem preparePath_formula_witness :
    preparePath ["tmp", "chaos"] ["tmp", "enc"] ["tmp", "chaos", "hello"] =
      some (["tmp", "enc"] ++
        (["tmp", "chaos", "hello"].drop (["tmp", "chaos"] : List String).length)) ∧
    injectPreparePath ["tmp", "chaos"] ["tmp", "chaos", "hello"] =
      some ["tmp", "chaos", "hello"] ∧
    prepareEntry ["tmp", "chaos"] ["tmp", "enc"] 3 .other = none :=
  preparePath_formula ["tmp", "chaos"] ["tmp", "enc"]
    ["tmp", "chaos", "hello"] 3 (by decide)

/-- C3 counterexample: when `inject` failed and the signal has been
received, `main` skips `resume` through `if let Ok` and falls through to
`Ok(())`, so the process exits with status 0, not non-zero. -/
theorem main_exit_zero_on_inject_failure_cx :
    exitStatus (mainAfterSignal (.error "MountFailed") (.ok ())) = 0 := rfl

/-- C3 (amended): the process exits 0 after a clean resume, and it also
exits 0 when inject failed fatally and a signal was then received (resume
is skipped but `main` still returns `Ok(())`); a non-zero status arises
only when the signal wait or `resume` itself returns an error. -/
theorem main_exit_status (env : ResumeEnv) (e w : String) :
    exitStatus (mainAfterSignal (.error e) (.ok ())) = 0 ∧
    mainAfterSignal (.ok env) (.ok ()) = (resume env).result ∧
    exitStatus (mainAfterSignal (.ok env) (.error w)) = 1 ∧
    exitStatus (mainAfterSignal (.error e) (.error w)) = 1 :=
  ⟨rfl, rfl, rfl, rfl⟩

/-- C4 counterexample: in the inject sequence the `MS_MOVE` over the
target happens inside `injection.mount()` and therefore before
`replacer.run()` (main.rs lines 97-103 and the comment at lines 101-102),
so the FD rewrite does not complete before the `MS_MOVE`. -/
theorem inject_order_cx :
    ¬ injectPos .replacerRun < injectPos .msMoveOverTarget := by decide

/-- C4 (amended): inject runs its steps in the fixed order private
remount, bind-mount onto itself, replacer prepare, FUSE mount at the
shadow, `MS_MOVE` over the target, FD rewrite, enable injection; the FD
rewrite completes after the `MS_MOVE`, not before it. -/
theorem inject_order :
    injectPos .msPrivateRemount < injectPos .msBindSelf ∧
    injectPos .msBindSelf < injectPos .replacerPrepare ∧
    injectPos .replacerPrepare < injectPos .fuseMountShadow ∧
    injectPos .fuseMountShadow < injectPos .msMoveOverTarget ∧
    injectPos .msMoveOverTarget < injectPos .replacerRun ∧
    injectPos .replacerRun < injectPos .enableInjection := by decide

/-- C5 counterexample: a replacer preparation failure makes `resume`
return through `?` before `recover_mount` is called: recovery is not
attempted. -/
theorem resume_skips_recover_cx :
    (resume prepFailEnv).recoverAttempted = false ∧
    (resume prepFailEnv).result = .error "PtraceAttachFailed" :=
  ⟨rfl, rfl⟩

/-- C5 (amended): a replacer run failure during resume is only logged and
`recover_mount` still runs, but a canonicalize, encode path or replacer
prepare failure aborts `resume` through `?` before `recover_mount` is
attempted. -/
theorem resume_recover_reach (env : ResumeEnv) (c n : List String)
    (hm : env.mountOnly = false) (hc : env.canonicalizeRes = .ok c)
    (he : env.encodePathRes = .ok n) :
    (env.prepareRes = .ok () →
      (resume env).ranReplacer = true ∧ (resume env).recoverAttempted = true) ∧
    (∀ e, env.prepareRes = .error e →
      (resume env).recoverAttempted = false ∧ (resume env).result = .error e) := by
  constructor
  · intro hp
    unfold resume
    rw [hc, he, hm, hp]
    simp only [Bool.false_eq_true, if_false]
    cases hr : env.recoverMountRes <;> simp [resumeTail, hr]
  · intro e hp
    unfold resume
    rw [hc, he, hm, hp]
    simp

/-- C5 witness: the amended statement evaluated on an environment whose
preparation succeeds and whose replacer run fails. -/
theorem resume_recover_reach_witness :
    (resume prepOkEnv).ranReplacer = true ∧
    (resume prepOkEnv).recoverAttempted = true :=
  (resume_recover_reach prepOkEnv ["tmp", "chaos"] ["tmp", "chaos-enc"]
    rfl rfl rfl).1 rfl

/-- Helper: a success of the retry loop happens on an attempt that
satisfied the operation, within the budget of one initial attempt plus
one attempt per delay. -/
theorem retryRun_ok_bound (op : Nat → Bool) :
    ∀ (delays : List Nat) (t n : Nat), retryRun op t delays = .ok n →
      op n = true ∧ n ≤ t + delays.length := by
  intro delays
  induction delays with
  | nil =>
    intro t n h
    unfold retryRun at h
    by_cases ho : op t
    · rw [if_pos ho] at h
      injection h with hn
      subst hn
      exact ⟨ho, by omega⟩
    · rw [if_neg ho] at h
      exact absurd h (by simp)
  | cons d ds ih =>
    intro t n h
    unfold retryRun at h
    by_cases ho : op t
    · rw [if_pos ho] at h
      injection h with hn
      subst hn
      exact ⟨ho, by omega⟩
    · rw [if_neg ho] at h
      obtain ⟨h1, h2⟩ := ih (t + 1) n h
      refine ⟨h1, ?_⟩
      simp only [List.length_cons]
      omega

/-- Helper: the retry loop reports exhaustion only after every attempt,
from the first through the last of the budget, failed. -/
theorem retryRun_error_exhausted (op : Nat → Bool) :
    ∀ (delays : List Nat) (t n : Nat), retryRun op t delays = .error n →
      n = t + delays.length ∧ ∀ i, t ≤ i → i ≤ n → op i = false := by
  intro delays
  induction delays with
  | nil =>
    intro t n h
    unfold retryRun at h
    by_cases ho : op t
    · rw [if_pos ho] at h
      exact absurd h (by simp)
    · rw [if_neg ho] at h
      injection h with hn
      subst hn
      refine ⟨by simp, fun i h1 h2 => ?_⟩
      have : i = t := by omega
      subst this
      simpa using ho
  | cons d ds ih =>
    intro t n h
    unfold retryRun at h
    by_cases ho : op t
    · rw [if_pos ho] at h
      exact absurd h (by simp)
    · rw [if_neg ho] at h
      obtain ⟨h1, h2⟩ := ih (t + 1) n h
      refine ⟨by simp only [List.length_cons]; omega, fun i hi1 hi2 => ?_⟩
      by_cases hit : i = t
      · subst hit
        simpa using ho
      · exact h2 i (by omega) hi2

/-- C6 counterexample: the delay iterator of 20 delays permits one
initial attempt plus 20 retries, so an umount that first succeeds on
attempt 21 makes `bind_mount` return success after 21 attempts, beyond
the claimed total budget of 20. -/
theorem bindMount_21_attempts_cx :
    bindMount true succeedAt21 = .ok 21 := by decide

/-- C6 (amended): `bind_mount(src, dst)` bind-mounts `src` at `dst` and
then repeatedly attempts `umount(src)` with a fixed 500 ms delay between
attempts, making at most 21 attempts in total (one initial attempt plus
the 20 retries of the delay iterator), returning success as soon as one
umount succeeds and an error once all 21 attempts failed. -/
theorem bindMount_retry_budget (op : Nat → Bool) :
    (∀ n, bindMount true op = .ok n → op n = true ∧ n ≤ 21) ∧
    (∀ n, bindMount true op = .err n →
      n = 21 ∧ ∀ i, 1 ≤ i → i ≤ 21 → op i = false) ∧
    (fixedTake 20).length = 20 ∧ (∀ d ∈ fixedTake 20, d = 500) := by
  have hlen : (fixedTake 20).length = 20 := by simp [fixedTake]
  refine ⟨?_, ?_, hlen, by simp [fixedTake]⟩
  · intro n h
    unfold bindMount at h
    rw [if_pos rfl] at h
    cases hr : retryRun op 1 (fixedTake 20) with
    | ok m =>
      rw [hr] at h
      injection h with hm
      subst hm
      have := retryRun_ok_bound op (fixedTake 20) 1 _ hr
      rw [hlen] at this
      exact this
    | error m =>
      rw [hr] at h
      exact absurd h (by simp)
  · intro n h
    unfold bindMount at h
    rw [if_pos rfl] at h
    cases hr : retryRun op 1 (fixedTake 20) with
    | ok m =>
      rw [hr] at h
      exact absurd h (by simp)
    | error m =>
      rw [hr] at h
      injection h with hm
      subst hm
      obtain ⟨ha, hb⟩ := retryRun_error_exhausted op (fixedTake 20) 1 _ hr
      rw [hlen] at ha
      exact ⟨by omega, fun i h1 h2 => hb i h1 (by omega)⟩

/-- C6 witness: the amended statement evaluated on an umount that
succeeds on its first attempt. -/
theorem bindMount_retry_budget_witness :
    succeedAt1 1 = true ∧ 1 ≤ 21 :=
  (bindMount_retry_budget succeedAt1).1 1 (by decide)

/-- C9: `bind_mount` panics the whole process when the `MS_BIND` mount
syscall fails and never reports that failure as `Err`; the only `Err` it
returns comes from the umount retry loop reporting exhaustion. -/
theorem bindMount_bind_failure_panics (op : Nat → Bool) :
    bindMount false op = .panicked ∧
    (∀ n, bindMount false op ≠ .err n) ∧
    (∀ n, bindMount true op = .err n →
      retryRun op 1 (fixedTake 20) = .error n) := by
  refine ⟨rfl, fun n => by simp [bindMount], fun n h => ?_⟩
  unfold bindMount at h
  rw [if_pos rfl] at h
  cases hr : retryRun op 1 (fixedTake 20) with
  | ok m =>
    rw [hr] at h
    exact absurd h (by simp)
  | error m =>
    rw [hr] at h
    injection h with hm
    subst hm
    rfl

/-- C9 witness: the statement evaluated on an always-failing umount. -/
theorem bindMount_bind_failure_panics_witness :
    bindMount false umountAllFail = .panicked ∧
    retryRun umountAllFail 1 (fixedTake 20) = .error 21 :=
  ⟨(bindMount_bind_failure_panics umountAllFail).1,
   (bindMount_bind_failure_panics umountAllFail).2.2 21 (by decide)⟩

/-- Helper: the payload loop starting at `r15 = r` with byte bound
`r + d` makes the ceiling of `d / 16` passes. -/
theorem loopIter_eq (d : Nat) : ∀ r : Nat, loopIter (r + d) r = (d + 15) / 16 := by
  induction d using Nat.strong_induction_on with
  | _ d ih =>
    intro r
    rw [loopIter]
    by_cases h : r < r + d
    · rw [if_pos h]
      by_cases h16 : 16 ≤ d
      · have hd : r + d = (r + 16) + (d - 16) := by omega
        rw [hd, ih (d - 16) (by omega)]
        omega
      · rw [loopIter, if_neg (by omega)]
        omega
    · rw [if_neg h]
      omega

/-- Helper: the first component of `openStep` is the raw syscall return
value in both branches. -/
theorem openStep_fst (openRes : List String → Int → Int) (tbl : FdTable)
    (p : List String) (flags : Int) :
    (openStep openRes tbl p flags).1 = openRes p flags := by
  unfold openStep
  by_cases h : 0 ≤ openRes p flags
  · rw [if_pos h]
  · rw [if_neg h]

/-- Helper: `dup2` on a live source descriptor rebinds the target slot. -/
theorem dup2Step_of_some (tbl : FdTable) (oldfd newfd : Int) (o : FileObj)
    (h : tbl oldfd = some o) :
    dup2Step tbl oldfd newfd = fun k => if k = newfd then some o else tbl k := by
  unfold dup2Step
  rw [h]

/-- Helper: `dup2` on a dead source descriptor fails with `EBADF` and
changes nothing. -/
theorem dup2Step_of_none (tbl : FdTable) (oldfd newfd : Int)
    (h : tbl oldfd = none) : dup2Step tbl oldfd newfd = tbl := by
  unfold dup2Step
  rw [h]

/-- Helper: `close` on a live descriptor removes it. -/
theorem closeStep_of_some (tbl : FdTable) (fd : Int) (o : FileObj)
    (h : tbl fd = some o) :
    closeStep tbl fd = fun k => if k = fd then none else tbl k := by
  unfold closeStep
  rw [h]

/-- Helper: `close` on a dead descriptor fails with `EBADF` and changes
nothing. -/
theorem closeStep_of_none (tbl : FdTable) (fd : Int) (h : tbl fd = none) :
    closeStep tbl fd = tbl := by
  unfold closeStep
  rw [h]

/-- Helper: `tblFd3` is a well-formed descriptor table. -/
theorem tblFd3_wf : FdTable.wf tblFd3 := by
  intro k hk
  unfold tblFd3
  rw [if_neg (by omega)]

/-- C7: each payload iteration issues `fcntl(fd, F_GETFL)` first and
passes the returned flags, unchanged, as the second argument of the
subsequent `open` of the new path; hence when the open succeeds on a
fresh descriptor, the rewritten fd ends up bound to the new path with
exactly its original flags (its `O_RDONLY`/`O_WRONLY`/`O_RDWR`/`O_APPEND`
mode is preserved). -/
theorem payload_inherits_flags (openRes : List String → Int → Int)
    (paths : Nat → List String) (tbl : FdTable) (c : Nat × Nat)
    (obj : FileObj) (h : tbl (c.1 : Int) = some obj)
    (hfresh : tbl (openRes (paths c.2) obj.flags) = none)
    (hok : 0 ≤ openRes (paths c.2) obj.flags) :
    (runCase openRes paths tbl c).1 =
      [.fcntl (c.1 : Int) 3 obj.flags,
       .openPath c.2 obj.flags 0 (openRes (paths c.2) obj.flags),
       .dup2 (openRes (paths c.2) obj.flags) (c.1 : Int),
       .closeFd (openRes (paths c.2) obj.flags)] ∧
    (runCase openRes paths tbl c).2 (c.1 : Int) =
      some ⟨paths c.2, obj.flags⟩ := by
  have hflags : fcntlGetfl tbl (c.1 : Int) = obj.flags := by
    unfold fcntlGetfl
    rw [h]
  have hne : openRes (paths c.2) obj.flags ≠ (c.1 : Int) := by
    intro he
    rw [he, h] at hfresh
    exact Option.noConfusion hfresh
  have htbl1 : (openStep openRes tbl (paths c.2) obj.flags).2 =
      fun k => if k = openRes (paths c.2) obj.flags
               then some ⟨paths c.2, obj.flags⟩ else tbl k := by
    unfold openStep
    rw [if_pos hok]
  constructor
  · simp only [runCase]
    rw [hflags, openStep_fst]
  · simp only [runCase]
    rw [hflags, openStep_fst, htbl1]
    have h1n : (fun k => if k = openRes (paths c.2) obj.flags
        then some (⟨paths c.2, obj.flags⟩ : FileObj) else tbl k)
        (openRes (paths c.2) obj.flags) = some ⟨paths c.2, obj.flags⟩ := by
      simp
    rw [dup2Step_of_some _ _ _ _ h1n]
    have h2n : (fun k => if k = (c.1 : Int)
        then some (⟨paths c.2, obj.flags⟩ : FileObj)
        else if k = openRes (paths c.2) obj.flags
        then some (⟨paths c.2, obj.flags⟩ : FileObj) else tbl k)
        (openRes (paths c.2) obj.flags) = some ⟨paths c.2, obj.flags⟩ := by
      show (if openRes (paths c.2) obj.flags = (c.1 : Int)
        then some (⟨paths c.2, obj.flags⟩ : FileObj)
        else if openRes (paths c.2) obj.flags = openRes (paths c.2) obj.flags
        then some (⟨paths c.2, obj.flags⟩ : FileObj)
        else tbl (openRes (paths c.2) obj.flags)) = some ⟨paths c.2, obj.flags⟩
      rw [if_neg hne, if_pos rfl]
    rw [closeStep_of_some _ _ _ h2n]
    show (if (c.1 : Int) = openRes (paths c.2) obj.flags then none
      else if (c.1 : Int) = (c.1 : Int)
      then some (⟨paths c.2, obj.flags⟩ : FileObj)
      else if (c.1 : Int) = openRes (paths c.2) obj.flags
      then some (⟨paths c.2, obj.flags⟩ : FileObj)
      else tbl (c.1 : Int)) = some ⟨paths c.2, obj.flags⟩
    rw [if_neg (Ne.symm hne), if_pos rfl]

/-- C7 witness: a victim descriptor 3 open with flags 1025 is rewritten
to the new path with flags 1025. -/
theorem payload_inherits_flags_witness :
    (runCase openGives4 pathsConst tblFd3 (3, 0)).2 (((3, 0) : Nat × Nat).1 : Int) =
      some ⟨["tmp", "chaos", "f"], 1025⟩ :=
  (payload_inherits_flags openGives4 pathsConst tblFd3 (3, 0)
    ⟨["tmp", "chaos", "f"], 1025⟩ (by decide) (by decide) (by decide)).2

/-- C8: an iteration whose `open` fails (negative return) leaves the
victim table unchanged, since the errno value is discarded and the
following `dup2` and `close` on it fail with `EBADF`: the original fd
stays bound to its old path, and the loop continues with the remaining
cases; the loop makes exactly `cases_length / 16` passes (16 being
`size_of::<ReplaceCase>()`), and the payload code ends with `int3`. -/
theorem payload_failed_open (openRes : List String → Int → Int)
    (paths : Nat → List String) (tbl : FdTable) (c : Nat × Nat)
    (rest : List (Nat × Nat)) (hwf : tbl.wf)
    (hfail : openRes (paths c.2) (fcntlGetfl tbl (c.1 : Int)) < 0) :
    (runCase openRes paths tbl c).2 = tbl ∧
    (runCases openRes paths tbl (c :: rest)).1 =
      (runCase openRes paths tbl c).1 ++ (runCases openRes paths tbl rest).1 ∧
    (runCases openRes paths tbl (c :: rest)).2 =
      (runCases openRes paths tbl rest).2 ∧
    (∀ k, loopIter (16 * k) 0 = k) ∧
    payloadCode.getLast? = some .int3 := by
  have hn : tbl (openRes (paths c.2) (fcntlGetfl tbl (c.1 : Int))) = none :=
    hwf _ hfail
  have hnot : ¬ (0 : Int) ≤ openRes (paths c.2) (fcntlGetfl tbl (c.1 : Int)) := by
    omega
  have hopen2 : (openStep openRes tbl (paths c.2) (fcntlGetfl tbl (c.1 : Int))).2 = tbl := by
    unfold openStep
    rw [if_neg hnot]
  have hstep : (runCase openRes paths tbl c).2 = tbl := by
    simp only [runCase]
    rw [openStep_fst, hopen2, dup2Step_of_none _ _ _ hn, closeStep_of_none _ _ hn]
  refine ⟨hstep, ?_, ?_, ?_, rfl⟩
  · simp only [runCases]
    rw [hstep]
  · simp only [runCases]
    rw [hstep]
  · intro k
    have hk := loopIter_eq (16 * k) 0
    rw [Nat.zero_add] at hk
    rw [hk]
    omega

/-- C8 witness: a failing open (`-ENOENT`) leaves the concrete victim
table unchanged. -/
theorem payload_failed_open_witness :
    (runCase openFailsEnoent pathsConst tblFd3 (3, 0)).2 = tblFd3 :=
  (payload_failed_open openFailsEnoent pathsConst tblFd3 (3, 0) []
    tblFd3_wf (by decide)).1

end Toda
